import Mathlib

/-!
Verification development for the Automated Test Log Analysis System.

The Python modules under `src/` are shallowly embedded as Lean functions on
lists of records:

* a pandas `DataFrame` of test records becomes a `List Rec`;
* machine floats become exact rationals `ℚ` (and `ℝ` where the code takes a
  square root);
* fallible values (`NaN` after `pd.to_numeric(..., errors="coerce")`,
  `NaT` after `pd.to_datetime(..., errors="coerce")`) become `Option`;
* a Python function that can raise becomes `Except String`.

Each definition is annotated with the source function it embeds.
-/

/-- Timestamp value. `pd.to_datetime` yields a datetime from which pandas
derives the ordering (`sort_values`), the ISO calendar year and the ISO week
number (`dt.isocalendar()`).  The embedding carries these derived attributes
as fields: `t` is the instant (seconds, used for ordering), `isoYear` and
`isoWeek` are the ISO calendar components of that instant. -/
structure Ts where
  t : Int
  isoYear : Int
  isoWeek : Nat
  deriving DecidableEq, Repr

/-- One test-log record (a row of the DataFrame), with the columns used by the
analytical pipeline.  Numeric columns are `Option ℚ` (`none` models `NaN`
after coercion), `timestamp` is `Option Ts` (`none` models `NaT`), and
`errorCode` is `Option String` (`none` models a missing `Error_Code`). -/
structure Rec where
  timestamp : Option Ts
  deviceId : String
  batchId : String
  testName : String
  voltage : Option ℚ
  temperature : Option ℚ
  frequency : Option ℚ
  executionTime : Option ℚ
  result : String
  errorCode : Option String
  deriving DecidableEq, Repr

/-- Python `str.strip()`: drop leading and trailing whitespace.  Implemented
directly on the character list so that it is kernel-computable. -/
def strTrim (s : String) : String :=
  ⟨((s.data.dropWhile Char.isWhitespace).reverse.dropWhile Char.isWhitespace).reverse⟩

/-- Python `str.upper()` for the ASCII strings appearing in the data. -/
def strUpper (s : String) : String := ⟨s.data.map Char.toUpper⟩

/-- Lexicographic strict order on character lists (Python/pandas string
ordering by code point), as a computable Bool. -/
def charListLt : List Char → List Char → Bool
  | [], [] => false
  | [], _ :: _ => true
  | _ :: _, [] => false
  | a :: as, b :: bs => if a < b then true else if b < a then false else charListLt as bs

/-- Non-strict string comparison used when sorting group keys. -/
def strLe (a b : String) : Bool := !(charListLt b.data a.data)

/-- VALID_RANGES from `data_processing.py`: each numeric column with its
inclusive `(lo, hi)` bounds, in the dictionary's insertion order
(Voltage, Temperature, Frequency, Execution_Time). -/
def VALID_RANGES : List ((Rec → Option ℚ) × ℚ × ℚ) :=
  [(Rec.voltage, mkRat 1 2, 2),
   (Rec.temperature, -40, 150),
   (Rec.frequency, mkRat 1 2, 5),
   (Rec.executionTime, 0, 10000)]

/-- Test for `df[numeric_cols].isna().any(axis=1)`: some required numeric
field is missing after coercion. -/
def hasMissing (r : Rec) : Bool :=
  r.voltage.isNone || r.temperature.isNone || r.frequency.isNone || r.executionTime.isNone

/-- Test for `(df[col] < lo) | (df[col] > hi)` on one column.  In pandas a
`NaN` compares false on both sides, hence the `none` branch. -/
def outOfRange (get : Rec → Option ℚ) (lo hi : ℚ) (r : Rec) : Bool :=
  match get r with
  | none => false
  | some v => decide (v < lo) || decide (hi < v)

/-- Embedding of the step-3 loop of `clean_data`: for each column in order,
count the rows failing that column's range test among the rows still present,
then remove them before the next column is examined.  Returns the surviving
rows and the accumulated `out_of_range_total`. -/
def seqFilter (ps : List (Rec → Bool)) (xs : List Rec) : List Rec × Nat :=
  match ps with
  | [] => (xs, 0)
  | p :: rest =>
    let after := seqFilter rest (xs.filter (fun x => !p x))
    (after.1, (xs.filter p).length + after.2)

/-- Predicates `bad` of the step-3 loop, one per column of VALID_RANGES. -/
def rangePreds : List (Rec → Bool) :=
  VALID_RANGES.map (fun e => outOfRange e.1 e.2.1 e.2.2)

/-- Cleaning report produced by `clean_data` (field names as in the source). -/
structure Report where
  rows_with_missing_values : Nat
  rows_out_of_range : Nat
  rows_bad_timestamp : Nat
  rows_invalid_result : Nat
  rows_removed : Nat
  rows_remaining : Nat
  deriving DecidableEq, Repr

/-- Step 5 normalization `df["Result"].str.strip().str.upper()`. -/
def normalizeResult (r : Rec) : Rec := { r with result := strUpper (strTrim r.result) }

/-- Step 6 `df["Error_Code"].fillna("")`. -/
def fillErrorCode (r : Rec) : Rec := { r with errorCode := some (r.errorCode.getD "") }

/-- Sort key of step 7 (`sort_values("Timestamp")`).  Every row reaching step
7 has a parsed timestamp; the default for `none` is never used there. -/
def tsKey (r : Rec) : Int := (r.timestamp.map Ts.t).getD 0

/-- Ordering relation for the step-7 sort. -/
def recLeP (a b : Rec) : Prop := tsKey a ≤ tsKey b

instance : DecidableRel recLeP := fun a b => inferInstanceAs (Decidable (tsKey a ≤ tsKey b))

instance : IsTotal Rec recLeP := ⟨fun a b => Int.le_total (tsKey a) (tsKey b)⟩

instance : IsTrans Rec recLeP := ⟨fun _ _ _ h h2 => Int.le_trans h h2⟩

/-- Embedding of `clean_data` from `data_processing.py`.  Step 1 (numeric
coercion) is the identity here because the numeric fields of `Rec` are
already the coerced `Option ℚ` values; steps 2-7 follow the source line by
line.  The step-7 sort is modeled here by a deterministic stable comparison
sort, which is adequate for properties that do not depend on the order of
rows with tied timestamps; the actual `sort_values` uses numpy's unstable
quicksort, embedded below as `sort_values_numpy`, and `clean_data_np` is
the variant of this function using it (the faithful model for
order-sensitive properties such as the fixed-point question). -/
def clean_data (df : List Rec) : List Rec × Report :=
  let initial := df.length
  let missing := (df.filter (fun r => hasMissing r)).length
  let df2 := df.filter (fun r => !hasMissing r)
  let ranged := seqFilter rangePreds df2
  let df3 := ranged.1
  let badTs := (df3.filter (fun r => r.timestamp.isNone)).length
  let df4 := df3.filter (fun r => r.timestamp.isSome)
  let df5 := df4.map normalizeResult
  let invalidRes := (df5.filter (fun r => !(r.result == "PASS" || r.result == "FAIL"))).length
  let df5v := df5.filter (fun r => r.result == "PASS" || r.result == "FAIL")
  let df6 := df5v.map fillErrorCode
  let out := List.insertionSort recLeP df6
  (out,
   { rows_with_missing_values := missing
     rows_out_of_range := ranged.2
     rows_bad_timestamp := badTs
     rows_invalid_result := invalidRes
     rows_removed := initial - out.length
     rows_remaining := out.length })

/-- First-occurrence deduplication, the order produced by pandas `.unique()`
and by iterating groupby keys before sorting. -/
def uniqueKeys {α : Type} [DecidableEq α] (l : List α) : List α :=
  l.foldl (fun acc k => if k ∈ acc then acc else acc ++ [k]) []

/-- Ordering of string group keys (pandas groupby sorts keys ascending). -/
def strLeP (a b : String) : Prop := strLe a b = true

instance : DecidableRel strLeP := fun a b => inferInstanceAs (Decidable (strLe a b = true))

/-- Embedding of `df.groupby(key)["Result"].agg(Total="count", Failures=...)`:
one `(key, Total, Failures)` triple per distinct key, keys sorted ascending. -/
def groupTotals (key : Rec → String) (df : List Rec) : List (String × Nat × Nat) :=
  (List.insertionSort strLeP (uniqueKeys (df.map key))).map
    (fun k =>
      let rows := df.filter (fun r => key r == k)
      (k, rows.length, (rows.filter (fun r => r.result == "FAIL")).length))

/-- Arithmetic mean of a rational series (`Series.mean()`). -/
def qMean (xs : List ℚ) : ℚ := xs.sum / xs.length

/-- Sum of squared deviations from the mean. -/
def qSumSqDev (xs : List ℚ) : ℚ := (xs.map (fun x => (x - qMean xs) ^ 2)).sum

/-- Sample variance with ddof = 1, matching pandas `Series.std() ^ 2`;
`none` models the NaN std of a series with fewer than two values.  The
variance is carried instead of the standard deviation so the zero test
`std == 0` becomes the equivalent `variance = 0`. -/
def sampleVar (xs : List ℚ) : Option ℚ :=
  if xs.length < 2 then none else some (qSumSqDev xs / ((xs.length : ℚ) - 1))

/-- Return shape of `zscore_anomalies` in `anomaly_detection.py`.  On the
normal path the function returns the 2-tuple `(flags, zscores)`; on the
`std == 0` path it returns only the bare flags Series (`pd.Series(False,
index=series.index)`), not a tuple.  The distinction is what the callers'
tuple unpacking observes. -/
inductive ZscoreResult
  | pair (flags : List Bool)
  | bare (flags : List Bool)
  deriving DecidableEq, Repr

/-- Embedding of `zscore_anomalies`.  With `mean` and `std` of the series,
the flag of element `x` is `|x - mean| / std > threshold`; since `std =
sqrt var > 0` on the normal path this is computed by the exact-arithmetic
equivalent `(x - mean) ^ 2 > threshold ^ 2 * var`.  A series with fewer than
two elements has NaN std, `NaN == 0` is false, and every NaN comparison is
false, so all flags are false on that path.  The z-score column itself
(`zscores.round(3)`) is not needed by any verified property and is not
modeled. -/
def zscore_anomalies (series : List ℚ) (threshold : ℚ) : ZscoreResult :=
  match sampleVar series with
  | none => ZscoreResult.pair (series.map (fun _ => false))
  | some v =>
    if v = 0 then ZscoreResult.bare (series.map (fun _ => false))
    else ZscoreResult.pair
      (series.map (fun x => decide (threshold ^ 2 * v < (x - qMean series) ^ 2)))

/-- Row of the per-batch statistics table built by `detect_anomalous_batches`. -/
structure BatchStat where
  key : String
  Total : Nat
  Failures : Nat
  Failure_Rate : ℚ
  Is_Anomaly : Bool
  deriving DecidableEq, Repr

/-- Shared table construction for the batch/device statistics. -/
def mkStatTable (stats : List (String × Nat × Nat)) (flags : List Bool) : List BatchStat :=
  (stats.zip flags).map
    (fun p => ⟨p.1.1, p.1.2.1, p.1.2.2, (p.1.2.2 : ℚ) / (p.1.2.1 : ℚ), p.2⟩)

/-- Embedding of `detect_anomalous_batches`.  The source line
`is_anomaly, zscores = zscore_anomalies(batch_stats["Failure_Rate"], z_threshold)`
unpacks the returned value into two names.  When `zscore_anomalies` returns
its normal 2-tuple this binds the flags and the z-scores.  When it returns
the bare boolean Series (the `std == 0` path), Python iterates the Series:
a Series of exactly 2 elements unpacks into two scalar booleans and the
function happens to finish with no flag set, while any other length raises
`ValueError`, modeled by the `Except.error` branch. -/
def detect_anomalous_batches (df : List Rec) :
    Except String (List BatchStat × List BatchStat) :=
  let stats := groupTotals Rec.batchId df
  let rates := stats.map (fun s => (s.2.2 : ℚ) / (s.2.1 : ℚ))
  match zscore_anomalies rates (mkRat 5 2) with
  | ZscoreResult.pair flags =>
    let table := mkStatTable stats flags
    Except.ok (table, table.filter (fun b => b.Is_Anomaly))
  | ZscoreResult.bare flags =>
    if flags.length = 2 then
      let table := mkStatTable stats flags
      Except.ok (table, table.filter (fun b => b.Is_Anomaly))
    else Except.error "ValueError: too many values to unpack"

/-- Descending-failure-rate order used for the outlier subset. -/
def rateGeP (a b : BatchStat) : Prop := b.Failure_Rate ≤ a.Failure_Rate

instance : DecidableRel rateGeP := fun a b =>
  inferInstanceAs (Decidable (b.Failure_Rate ≤ a.Failure_Rate))

/-- Embedding of `detect_outlier_devices`: per-device statistics restricted to
devices with at least 3 tests, z-score threshold 3.0, outliers sorted by
failure rate descending.  It unpacks `zscore_anomalies` exactly as
`detect_anomalous_batches` does and fails the same way on the bare return. -/
def detect_outlier_devices (df : List Rec) :
    Except String (List BatchStat × List BatchStat) :=
  let stats := (groupTotals Rec.deviceId df).filter (fun s => 3 ≤ s.2.1)
  let rates := stats.map (fun s => (s.2.2 : ℚ) / (s.2.1 : ℚ))
  match zscore_anomalies rates 3 with
  | ZscoreResult.pair flags =>
    let table := mkStatTable stats flags
    Except.ok (table, List.insertionSort rateGeP (table.filter (fun b => b.Is_Anomaly)))
  | ZscoreResult.bare flags =>
    if flags.length = 2 then
      let table := mkStatTable stats flags
      Except.ok (table, List.insertionSort rateGeP (table.filter (fun b => b.Is_Anomaly)))
    else Except.error "ValueError: too many values to unpack"

/-- Trailing window of width `w` ending at index `i`, as produced by pandas
`rolling(window=w, min_periods=1)`: the elements at indices
`max 0 (i + 1 - w)` through `i`.  The window CONTAINS the current element. -/
def window (xs : List ℚ) (w i : Nat) : List ℚ := (xs.take (i + 1)).drop (i + 1 - w)

/-- Rolling mean of `detect_error_spikes`. -/
def movingAvg (xs : List ℚ) (w i : Nat) : ℚ := qMean (window xs w i)

/-- Daily counts viewed as rationals. -/
def toQ (daily : List Nat) : List ℚ := daily.map (fun n => (n : ℚ))

/-- Rolling standard deviation (ddof = 1) with `.fillna(0)`: the NaN std of a
single-sample window becomes 0. -/
noncomputable def movingStd (xs : List ℚ) (w i : Nat) : ℝ :=
  match sampleVar (window xs w i) with
  | none => 0
  | some v => Real.sqrt v

/-- Embedding of the spike flag of `detect_error_spikes` at day `i` of the
resampled daily failure-count series: `daily > moving_avg + 2.5 * moving_std`
with a 7-day rolling window. -/
def isSpikeAt (daily : List Nat) (i : Nat) : Prop :=
  ((daily.getD i 0 : ℚ) : ℝ) >
    ((movingAvg (toQ daily) 7 i : ℚ) : ℝ) + 5 / 2 * movingStd (toQ daily) 7 i

/-- ISO calendar year of a record's timestamp (`dt.isocalendar().year`).
Used only on cleaned records, whose timestamp is present. -/
def isoYearOf (r : Rec) : Int := (r.timestamp.map Ts.isoYear).getD 0

/-- ISO week number of a record's timestamp (`dt.isocalendar().week`). -/
def isoWeekOf (r : Rec) : Nat := (r.timestamp.map Ts.isoWeek).getD 0

/-- Banker's rounding to an integer (round half to even), the rounding mode
of Python's `round` and of numpy/pandas `.round`. -/
def roundHalfEven (q : ℚ) : Int :=
  if q - ⌊q⌋ < mkRat 1 2 then ⌊q⌋
  else if mkRat 1 2 < q - ⌊q⌋ then ⌊q⌋ + 1
  else if ⌊q⌋ % 2 = 0 then ⌊q⌋ else ⌊q⌋ + 1

/-- Rounding to `d` decimal places (`.round(d)`), half to even. -/
def pyRound (d : Nat) (q : ℚ) : ℚ := (roundHalfEven (q * 10 ^ d) : ℚ) / 10 ^ d

/-- Row of the table built by `weekly_failure_rate` in `trend_analysis.py`:
group key is the pair (ISO year, ISO week). -/
structure WeeklyRow where
  Year : Int
  Week : Nat
  Total : Nat
  Failures : Nat
  Failure_Rate_Pct : ℚ
  deriving DecidableEq, Repr

/-- Lexicographic order on (Year, Week) group keys. -/
def yearWeekLeP (a b : Int × Nat) : Prop := a.1 < b.1 ∨ (a.1 = b.1 ∧ a.2 ≤ b.2)

instance : DecidableRel yearWeekLeP := fun a b =>
  inferInstanceAs (Decidable (a.1 < b.1 ∨ (a.1 = b.1 ∧ a.2 ≤ b.2)))

/-- Embedding of `weekly_failure_rate`: group by (ISO year, ISO week), count
rows and FAIL rows, rate as a rounded percentage. -/
def weekly_failure_rate (df : List Rec) : List WeeklyRow :=
  (List.insertionSort yearWeekLeP
      (uniqueKeys (df.map (fun r => (isoYearOf r, isoWeekOf r))))).map
    (fun k =>
      let rows := df.filter (fun r => isoYearOf r == k.1 && isoWeekOf r == k.2)
      let f := (rows.filter (fun r => r.result == "FAIL")).length
      ⟨k.1, k.2, rows.length, f, pyRound 2 ((f : ℚ) / (rows.length : ℚ) * 100)⟩)

/-- Row of the table built by `failure_trend_by_test`: the group key inside
each test is the ISO week number alone (`df_work["Week"]`), with no year. -/
structure TestWeekRow where
  Week : Nat
  Total : Nat
  Failures : Nat
  Failure_Rate_Pct : ℚ
  Test_Name : String
  deriving DecidableEq, Repr

/-- Order on week-number group keys. -/
def weekLeP (a b : Nat) : Prop := a ≤ b

instance : DecidableRel weekLeP := fun a b => inferInstanceAs (Decidable (a ≤ b))

instance : IsTotal Nat weekLeP := ⟨fun a b => Nat.le_total a b⟩

instance : IsTrans Nat weekLeP := ⟨fun _ _ _ h h2 => Nat.le_trans h h2⟩

/-- Embedding of `failure_trend_by_test`: for each Test_Name in order of
first appearance (`unique()`), group that test's rows by ISO week number
only, tag with the test, and concatenate. -/
def failure_trend_by_test (df : List Rec) : List TestWeekRow :=
  (uniqueKeys (df.map Rec.testName)).flatMap (fun t =>
    let sub := df.filter (fun r => r.testName == t)
    (List.insertionSort weekLeP (uniqueKeys (sub.map isoWeekOf))).map
      (fun w =>
        let rows := sub.filter (fun r => isoWeekOf r == w)
        let f := (rows.filter (fun r => r.result == "FAIL")).length
        ⟨w, rows.length, f, pyRound 2 ((f : ℚ) / (rows.length : ℚ) * 100), t⟩))

/-- FAILURE_CATEGORIES from `error_extraction.py`, in source order. -/
def FAILURE_CATEGORIES : List (String × String) :=
  [("ERR_T01", "Timing Failure"),
   ("ERR_T02", "Timing Failure"),
   ("ERR_T03", "Timing Failure"),
   ("ERR_V01", "Overcurrent"),
   ("ERR_V02", "Overcurrent"),
   ("ERR_B01", "Thermal Issue"),
   ("ERR_B02", "Thermal Issue"),
   ("ERR_B03", "Data Corruption"),
   ("ERR_S01", "Thermal Issue"),
   ("ERR_S02", "Data Corruption"),
   ("ERR_D01", "Data Corruption"),
   ("ERR_D02", "Data Corruption"),
   ("ERR_F01", "Timing Failure"),
   ("ERR_F02", "Overcurrent"),
   ("ERR_L01", "Overcurrent"),
   ("ERR_L02", "Thermal Issue"),
   ("ERR_P01", "Data Corruption"),
   ("ERR_P02", "Overcurrent")]

/-- Embedding of `extract_failures`: the FAIL rows, order preserved. -/
def extract_failures (df : List Rec) : List Rec :=
  df.filter (fun r => r.result == "FAIL")

/-- Category of an error code: `Series.map(FAILURE_CATEGORIES)` followed by
`.fillna("Unknown")`.  A missing code maps to NaN, and a code absent from
the dictionary maps to NaN; both become "Unknown". -/
def categoryOfCode (c : Option String) : String :=
  (c.bind (fun s => FAILURE_CATEGORIES.lookup s)).getD "Unknown"

/-- Record with the `Failure_Category` column added by `classify_failures`. -/
structure ClassifiedRec where
  record : Rec
  Failure_Category : String
  deriving DecidableEq, Repr

/-- Embedding of `classify_failures`: every record is kept and annotated. -/
def classify_failures (failures : List Rec) : List ClassifiedRec :=
  failures.map (fun r => ⟨r, categoryOfCode r.errorCode⟩)

/-- Row of a binned failure-rate table of `pattern_detection.py`: the bin is
the half-open interval `(lo, hi]` produced by `pd.cut`. -/
structure BinRow where
  lo : ℚ
  hi : ℚ
  Total : Nat
  Failures : Nat
  Failure_Rate_Pct : Option ℚ
  deriving DecidableEq, Repr

/-- Membership of a value in the `pd.cut` bin `(lo, hi]`; a missing value is
in no bin. -/
def inBin (lo hi : ℚ) (v : Option ℚ) : Bool :=
  match v with
  | none => false
  | some x => decide (lo < x) && decide (x ≤ hi)

/-- Embedding of `failure_rate_by_column` for a numeric column with explicit
bin edges.  `pd.cut` assigns the value `x` to the interval
`(edges i, edges (i+1)]`; a value outside every interval gets a null bin and
is dropped by the groupby.  The groupby over the resulting Categorical emits
one row per bin in bin order, including empty bins, whose rate is NaN
(`none` here). -/
def failure_rate_by_column_binned (get : Rec → Option ℚ) (edges : List ℚ)
    (df : List Rec) : List BinRow :=
  (edges.zip edges.tail).map (fun e =>
    let rows := df.filter (fun r => inBin e.1 e.2 (get r))
    let f := (rows.filter (fun r => r.result == "FAIL")).length
    ⟨e.1, e.2, rows.length, f,
     if rows.length = 0 then none
     else some (pyRound 2 ((f : ℚ) / (rows.length : ℚ) * 100))⟩)

/-- Bin edges of `failure_vs_temperature`: `list(range(20, 130, 10))`. -/
def tempEdges : List ℚ := [20, 30, 40, 50, 60, 70, 80, 90, 100, 110, 120]

/-- Bin edges of `failure_vs_voltage`: `[round(0.7 + i * 0.1, 1) for i in range(9)]`. -/
def voltEdges : List ℚ :=
  [mkRat 7 10, mkRat 8 10, mkRat 9 10, 1, mkRat 11 10, mkRat 12 10, mkRat 13 10,
   mkRat 14 10, mkRat 15 10]

/-- Bin edges of `failure_vs_duration`: `list(range(0, 400, 50))`. -/
def durEdges : List ℚ := [0, 50, 100, 150, 200, 250, 300, 350]

/-- Embedding of `failure_vs_temperature`. -/
def failure_vs_temperature (df : List Rec) : List BinRow :=
  failure_rate_by_column_binned Rec.temperature tempEdges df

/-- Embedding of `failure_vs_voltage`. -/
def failure_vs_voltage (df : List Rec) : List BinRow :=
  failure_rate_by_column_binned Rec.voltage voltEdges df

/-- Embedding of `failure_vs_duration`. -/
def failure_vs_duration (df : List Rec) : List BinRow :=
  failure_rate_by_column_binned Rec.executionTime durEdges df

/-- Sum of the Total column of a binned table. -/
def sumTotals (rows : List BinRow) : Nat := (rows.map BinRow.Total).sum

/-- Row of the correlation table of `compute_correlations`. -/
structure CorrRow where
  Feature : String
  Correlation : ℚ
  P_Value : ℚ
  Significant : Bool
  Strength : String
  deriving DecidableEq, Repr

/-- Numeric features examined by `compute_correlations`, in source order. -/
def numericFeatures : List (String × (Rec → Option ℚ)) :=
  [("Temperature", Rec.temperature),
   ("Voltage", Rec.voltage),
   ("Frequency", Rec.frequency),
   ("Execution_Time", Rec.executionTime)]

/-- Rows of `df_work[[feat, "Is_Fail"]].dropna()`: the (Is_Fail, feature)
pairs of the records where the feature is present (Is_Fail, being 0 or 1,
is never missing). -/
def validPairs (get : Rec → Option ℚ) (df : List Rec) : List (Bool × ℚ) :=
  df.filterMap (fun r => (get r).map (fun v => (r.result == "FAIL", v)))

/-- Embedding of `compute_correlations`, parameterized by the statistical
primitive `pbr` standing for `scipy.stats.pointbiserialr` (which returns the
correlation coefficient and the two-tailed p-value for a paired sample).
The verified structure is which features are emitted and how each row's
fields derive from the primitive's output; the special-function computation
inside scipy is taken as the parameter. -/
def compute_correlations (pbr : List (Bool × ℚ) → ℚ × ℚ) (df : List Rec) :
    List CorrRow :=
  numericFeatures.filterMap (fun fg =>
    let valid := validPairs fg.2 df
    if valid.length < 10 then none
    else
      let c := pbr valid
      some ⟨fg.1, pyRound 4 c.1, c.2, decide (c.2 < mkRat 5 100),
            if mkRat 3 10 < |c.1| then "Strong"
            else if mkRat 1 10 < |c.1| then "Moderate" else "Weak"⟩)

/-- Fully valid template record for building concrete inputs. -/
def baseRec : Rec :=
  ⟨some ⟨0, 2025, 1⟩, "DEV_0", "Batch_01", "Timing_Check",
   some 1, some 25, some 2, some 100, "PASS", some ""⟩

/-- Concrete cleaned table with three batches of 4 tests each, exactly two
failures per batch, so every batch failure rate is exactly 1/2 (a value a
float computes exactly, making the `std == 0` branch certain); likewise
three devices with 4 tests each and rate 1/2. -/
def c1df : List Rec :=
  [{ baseRec with batchId := "Batch_01", deviceId := "DEV_1", result := "FAIL", errorCode := some "ERR_T01" },
   { baseRec with batchId := "Batch_01", deviceId := "DEV_1", result := "FAIL", errorCode := some "ERR_T02" },
   { baseRec with batchId := "Batch_01", deviceId := "DEV_1" },
   { baseRec with batchId := "Batch_01", deviceId := "DEV_1" },
   { baseRec with batchId := "Batch_02", deviceId := "DEV_2", result := "FAIL", errorCode := some "ERR_T01" },
   { baseRec with batchId := "Batch_02", deviceId := "DEV_2", result := "FAIL", errorCode := some "ERR_T02" },
   { baseRec with batchId := "Batch_02", deviceId := "DEV_2" },
   { baseRec with batchId := "Batch_02", deviceId := "DEV_2" },
   { baseRec with batchId := "Batch_03", deviceId := "DEV_3", result := "FAIL", errorCode := some "ERR_T01" },
   { baseRec with batchId := "Batch_03", deviceId := "DEV_3", result := "FAIL", errorCode := some "ERR_T02" },
   { baseRec with batchId := "Batch_03", deviceId := "DEV_3" },
   { baseRec with batchId := "Batch_03", deviceId := "DEV_3" }]

/-- Concrete input for C2: a single record violating the Voltage range
(3 ∉ [0.5, 2]) and the Temperature range (200 ∉ [-40, 150]) at once. -/
def c2df : List Rec := [{ baseRec with voltage := some 3, temperature := some 200 }]

/-- Concrete input for C5: a valid PASS record carrying a non-empty
Error_Code. -/
def c5df : List Rec := [{ baseRec with errorCode := some "ERR_T01" }]

def c3daily : List Nat := [3, 3, 3, 5, 7, 7, 7, 50]

def c3daily10 : List Nat := [3, 3, 3, 5, 7, 7, 7, 10]

/-- Concrete input for C10: two fully valid records, one whose Temperature
15 is inside the cleaning range [-40, 150] but below the lowest bin edge 20,
one whose Temperature 25 falls in the bin (20, 30]. -/
def c10df : List Rec := [{ baseRec with temperature := some 15 }, baseRec]

/-- Timestamps with the same ISO week number in different ISO years, for
example 2024-01-30 (ISO 2024-W05) and 2025-01-28 (ISO 2025-W05). -/
def c4t1 : Ts := ⟨100, 2024, 5⟩

def c4t2 : Ts := ⟨200, 2025, 5⟩

/-- Concrete input for C4: two records of one test, one in ISO 2024-W05 and
one in ISO 2025-W05 (same week number 5, different ISO years). -/
def c4df : List Rec :=
  [{ baseRec with timestamp := some c4t1 },
   { baseRec with timestamp := some c4t2, result := "FAIL", errorCode := some "ERR_T01" }]

def pbr0 : List (Bool × ℚ) → ℚ × ℚ := fun _ => (0, 1)

/-- Twelve valid records: enough paired observations for every feature. -/
def c8df : List Rec := List.replicate 12 baseRec

/-- Slot lookup in an argsort index list (C pointer dereference `*p`).  The
default is never used on the in-bounds accesses the C code performs. -/
def lgetN (l : List Nat) (i : Nat) : Nat := l.getD i 0

/-- Key of the row whose original position is stored at slot `i` of the
index list (`v[*p]` in the C source). -/
def keyAt (v : List Int) (t : List Nat) (i : Nat) : Int := v.getD (lgetN t i) 0

/-- INTP_SWAP of two slots of the index list.  The C code only ever swaps
in-bounds slots; the guard makes the function total without carrying a
bounds invariant and is never taken on the C-reachable calls. -/
def iswap (t : List Nat) (i j : Nat) : List Nat :=
  if i < t.length ∧ j < t.length then (t.set i (lgetN t j)).set j (lgetN t i) else t

/-- The `do ++pi; while (LT(v[*pi], vp))` scan of the partition: the first
slot above `i` whose key is not below the pivot.  Fuel-bounded; on the
C-reachable calls the pivot parked at `pr - 1` stops the scan in bounds
long before the fuel runs out. -/
def scanUp (v : List Int) (t : List Nat) (vp : Int) (i : Nat) : Nat → Nat
  | 0 => i + 1
  | fuel + 1 => if keyAt v t (i + 1) < vp then scanUp v t vp (i + 1) fuel else i + 1

/-- The `do --pj; while (LT(vp, v[*pj]))` scan: the first slot below `j`
whose key is not above the pivot. -/
def scanDown (v : List Int) (t : List Nat) (vp : Int) (j : Nat) : Nat → Nat
  | 0 => j - 1
  | fuel + 1 => if vp < keyAt v t (j - 1) then scanDown v t vp (j - 1) fuel else j - 1

/-- Hoare partition loop of numpy's `aquicksort_`: advance both scans and
swap the two slots while the pointers have not crossed; returns the final
index list and the crossing point `pi`. -/
def partLoop (v : List Int) (vp : Int) (t : List Nat) (pi pj : Nat) : Nat → List Nat × Nat
  | 0 => (t, pi)
  | fuel + 1 =>
    let i2 := scanUp v t vp pi t.length
    let j2 := scanDown v t vp pj t.length
    if j2 ≤ i2 then (t, i2)
    else partLoop v vp (iswap t i2 j2) i2 j2 fuel

/-- Small-segment sort of `aquicksort_` on the index segment `[pl, pr]`:
its shift-and-insert loop is the standard stable insertion sort of the
segment by key, which is how it is rendered here. -/
def sortSegment (v : List Int) (t : List Nat) (pl pr : Nat) : List Nat :=
  t.take pl ++
    List.insertionSort (fun a b => v.getD a 0 ≤ v.getD b 0) ((t.drop pl).take (pr + 1 - pl)) ++
    (t.drop pl).drop (pr + 1 - pl)

/-- Recursive core of numpy's indirect introsort `aquicksort_`
(npysort `quicksort.c.src`), the routine behind
`np.argsort(kind='quicksort')`: median-of-3 pivot selection by slot swaps,
the pivot parked at `pr - 1`, the Hoare partition, recursion into both
sub-segments, and the insertion sort for segments of at most
SMALL_QUICKSORT = 15 elements (so only index ranges with `pr - pl > 15`,
i.e. tables of more than 16 rows, take the partition path, which swaps
tied keys).  The C code holds one sub-segment on an explicit stack; the
sub-segments are disjoint, so plain recursion computes the same array.
Two inert simplifications, confined to paths nothing in this development
reaches: the depth budget is threaded per branch rather than shared
across the whole sort, and the heapsort fallback taken when the budget is
exhausted is modeled by a correct stable sort of the segment (like
numpy's heapsort it returns some sorted permutation of the segment). -/
def introSort (v : List Int) : Nat → List Nat → Nat → Nat → Nat → List Nat
  | 0, t, _, _, _ => t
  | fuel + 1, t, pl, pr, depth =>
    if pr ≤ pl + 15 then sortSegment v t pl pr
    else
      match depth with
      | 0 => sortSegment v t pl pr
      | depth + 1 =>
        let pm := pl + (pr - pl) / 2
        let t1 := if keyAt v t pm < keyAt v t pl then iswap t pm pl else t
        let t2 := if keyAt v t1 pr < keyAt v t1 pm then iswap t1 pr pm else t1
        let t3 := if keyAt v t2 pm < keyAt v t2 pl then iswap t2 pm pl else t2
        let vp := keyAt v t3 pm
        let t4 := iswap t3 pm (pr - 1)
        let pres := partLoop v vp t4 pl (pr - 1) t4.length
        let t6 := iswap pres.1 pres.2 (pr - 1)
        let t7 := introSort v fuel t6 pl (pres.2 - 1) depth
        introSort v fuel t7 (pres.2 + 1) pr depth

/-- Fuel-bounded `npy_get_msb`: the position of the most significant bit. -/
def msbFuel : Nat → Nat → Nat
  | 0, _ => 0
  | fuel + 1, n => if 2 ≤ n then msbFuel fuel (n / 2) + 1 else 0

/-- numpy `npy_get_msb(num)`, the basis of the introsort depth budget. -/
def npyMsb (n : Nat) : Nat := msbFuel n n

/-- numpy `np.argsort(v, kind='quicksort')` on a key column: the index
permutation produced by `aquicksort_` started on the identity index list
with depth budget `2 * npy_get_msb n`.  For the empty column the fuel is 0
and the empty index list is returned at once. -/
def argsortNumpy (v : List Int) : List Nat :=
  introSort v v.length (List.range v.length) 0 (v.length - 1) (2 * npyMsb v.length)

/-- pandas `df.sort_values("Timestamp")` with the default
`kind='quicksort'`: take the rows in the order of numpy's indirect
introsort over the timestamp keys.  Unlike a stable sort this permutes
rows with tied timestamps once the table has more than 16 rows. -/
def sort_values_numpy (df : List Rec) : List Rec :=
  (argsortNumpy (df.map tsKey)).map (fun i => df.getD i baseRec)

/-- Embedding of `clean_data` with step 7 rendered as the actual
quicksort-based `sort_values` (`sort_values_numpy`) instead of the
deterministic stable sort of `clean_data`.  Steps 1-6 are identical; this
is the faithful model for properties sensitive to the order of rows with
tied timestamps. -/
def clean_data_np (df : List Rec) : List Rec × Report :=
  let initial := df.length
  let missing := (df.filter (fun r => hasMissing r)).length
  let df2 := df.filter (fun r => !hasMissing r)
  let ranged := seqFilter rangePreds df2
  let df3 := ranged.1
  let badTs := (df3.filter (fun r => r.timestamp.isNone)).length
  let df4 := df3.filter (fun r => r.timestamp.isSome)
  let df5 := df4.map normalizeResult
  let invalidRes := (df5.filter (fun r => !(r.result == "PASS" || r.result == "FAIL"))).length
  let df5v := df5.filter (fun r => r.result == "PASS" || r.result == "FAIL")
  let df6 := df5v.map fillErrorCode
  let out := sort_values_numpy df6
  (out,
   { rows_with_missing_values := missing
     rows_out_of_range := ranged.2
     rows_bad_timestamp := badTs
     rows_invalid_result := invalidRes
     rows_removed := initial - out.length
     rows_remaining := out.length })

/-- Seventeen valid records with identical timestamps and pairwise distinct
temperatures: more than 16 tied rows, so the step-7 quicksort takes the
partition path and permutes them. -/
def c7df : List Rec :=
  (List.range 17).map (fun i => { baseRec with temperature := some ((20 + i : ℕ) : ℚ) })

lemma qSumSqDev_const3 (q : ℚ) : qSumSqDev [q, q, q] = 0 := by
  simp [qSumSqDev, qMean]
  ring

lemma sampleVar_const3 (q : ℚ) : sampleVar [q, q, q] = some 0 := by
  simp [sampleVar, qSumSqDev_const3]

lemma zscore_anomalies_const3 (q th : ℚ) :
    zscore_anomalies [q, q, q] th = ZscoreResult.bare [false, false, false] := by
  unfold zscore_anomalies
  rw [sampleVar_const3]
  simp

/-- C1: the claim says that on a zero-variance failure-rate series both
z-score procedures return their statistics tables with every flag False and
raise no error.  The guard in `zscore_anomalies` indeed intends exactly that
(`pd.Series(False, index=series.index)`), but it returns the bare Series
where every other path returns a 2-tuple, so the callers' unpacking
`is_anomaly, zscores = zscore_anomalies(...)` raises `ValueError` whenever
the number of groups is not 2.  On `c1df` (three batches and three devices,
all with failure rate 1/3) both procedures raise instead of returning
all-False tables: the claim is right and the code is wrong. -/
theorem C1_zero_variance_raises :
    detect_anomalous_batches c1df = Except.error "ValueError: too many values to unpack" ∧
    detect_outlier_devices c1df = Except.error "ValueError: too many values to unpack" := by
  have hb : groupTotals Rec.batchId c1df =
      [("Batch_01", 4, 2), ("Batch_02", 4, 2), ("Batch_03", 4, 2)] := by decide
  have hd : (groupTotals Rec.deviceId c1df).filter (fun s => 3 ≤ s.2.1) =
      [("DEV_1", 4, 2), ("DEV_2", 4, 2), ("DEV_3", 4, 2)] := by decide
  constructor
  · simp only [detect_anomalous_batches, hb, List.map_cons, List.map_nil,
      zscore_anomalies_const3]
    norm_num
  · simp only [detect_outlier_devices, hd, List.map_cons, List.map_nil,
      zscore_anomalies_const3]
    norm_num

lemma seqFilter_fst (ps : List (Rec → Bool)) (xs : List Rec) :
    (seqFilter ps xs).1 = xs.filter (fun x => !ps.any (fun p => p x)) := by
  induction ps generalizing xs with
  | nil => simp [seqFilter]
  | cons p rest ih =>
    simp only [seqFilter, ih, List.filter_filter, List.any_cons]
    congr 1
    funext x
    cases hp : p x <;> simp [hp]

lemma filter_or_split (p q : Rec → Bool) (l : List Rec) :
    (l.filter (fun x => p x || q x)).length =
      (l.filter p).length + (l.filter (fun x => q x && !p x)).length := by
  induction l with
  | nil => rfl
  | cons a t ih =>
    cases hp : p a <;> cases hq : q a <;> simp [List.filter_cons, hp, hq, ih] <;> omega

lemma seqFilter_snd (ps : List (Rec → Bool)) (xs : List Rec) :
    (seqFilter ps xs).2 = (xs.filter (fun x => ps.any (fun p => p x))).length := by
  induction ps generalizing xs with
  | nil => simp [seqFilter]
  | cons p rest ih =>
    simp only [seqFilter, ih, List.filter_filter, List.any_cons]
    rw [filter_or_split]

/-- C2 counterexample: the claim says a row violating two columns' ranges
contributes 2 to `rows_out_of_range`.  On `c2df` the single row violates
both the Voltage and the Temperature range, yet the report counts 1,
because the row is removed by the Voltage check before the Temperature
check runs. -/
theorem C2_counterexample :
    (clean_data c2df).2.rows_out_of_range = 1 ∧ (clean_data c2df).2.rows_removed = 1 := by
  decide

/-- C2 amended: `rows_out_of_range` counts each removed row exactly once -
at the first column (in the order Voltage, Temperature, Frequency,
Execution_Time) whose range it violates - because rows are removed from the
table between the per-column checks.  Hence the field equals the number of
distinct rows (among those surviving the missing-value drop) violating at
least one declared range, and each such row is removed exactly once. -/
theorem C2_amended_out_of_range_counts_rows_once (df : List Rec) :
    (clean_data df).2.rows_out_of_range =
      ((df.filter (fun r => !hasMissing r)).filter
        (fun r => rangePreds.any (fun p => p r))).length := by
  simp only [clean_data]
  rw [seqFilter_snd]

lemma clean_data_mem (df : List Rec) (r : Rec) (h : r ∈ (clean_data df).1) :
    ∃ s, s ∈ df ∧ r = fillErrorCode (normalizeResult s) ∧ hasMissing s = false ∧
      rangePreds.any (fun p => p s) = false ∧ s.timestamp.isSome = true ∧
      (r.result = "PASS" ∨ r.result = "FAIL") := by
  simp only [clean_data] at h
  have h6 := (List.perm_insertionSort recLeP _).mem_iff.mp h
  obtain ⟨r5, hr5, hfill⟩ := List.mem_map.mp h6
  have hr5f := List.mem_filter.mp hr5
  obtain ⟨s, hs4, hnorm⟩ := List.mem_map.mp hr5f.1
  rw [seqFilter_fst] at hs4
  have hs3 := List.mem_filter.mp hs4
  have hs2 := List.mem_filter.mp hs3.1
  have hs1 := List.mem_filter.mp hs2.1
  refine ⟨s, hs1.1, ?_, ?_, ?_, ?_, ?_⟩
  · rw [← hfill, ← hnorm]
  · simpa using hs1.2
  · simpa using hs2.2
  · simpa using hs3.2
  · have hres : r.result = r5.result := by rw [← hfill]; rfl
    rcases Bool.or_eq_true_iff.mp hr5f.2 with hp | hf
    · exact Or.inl (by rw [hres]; exact (beq_iff_eq.mp hp))
    · exact Or.inr (by rw [hres]; exact (beq_iff_eq.mp hf))

/-- C5 counterexample: the claim says every PASS record in the cleaned
table has an empty Error_Code, for every input.  Cleaning `c5df` keeps its
PASS record together with its non-empty code "ERR_T01": step 6 only
replaces a MISSING Error_Code with "", it never blanks the code of a PASS
record. -/
theorem C5_counterexample :
    (clean_data c5df).1.map Rec.result = ["PASS"] ∧
    (clean_data c5df).1.map Rec.errorCode = [some "ERR_T01"] := by
  decide

/-- C5 amended: the invariant holds exactly when the input already satisfies
it - if every input record whose normalized Result is PASS carries a missing
or empty Error_Code (as the log generator guarantees), then every PASS
record of the cleaned table has Error_Code "". -/
theorem C5_amended_pass_errorcode (df : List Rec)
    (h : ∀ r ∈ df, strUpper (strTrim r.result) = "PASS" →
      r.errorCode = none ∨ r.errorCode = some "") :
    ∀ r ∈ (clean_data df).1, r.result = "PASS" → r.errorCode = some "" := by
  intro r hr hres
  obtain ⟨s, hsdf, heq, -, -, -, -⟩ := clean_data_mem df r hr
  have hres2 : strUpper (strTrim s.result) = "PASS" := by
    rw [heq] at hres
    simpa [fillErrorCode, normalizeResult] using hres
  rcases h s hsdf hres2 with h0 | h0 <;>
    · rw [heq]
      simp [fillErrorCode, normalizeResult, h0]

theorem C5_amended_pass_errorcode_witness :
    baseRec.errorCode = some "" :=
  C5_amended_pass_errorcode [baseRec] (by decide) baseRec (by decide) (by decide)

lemma ranges_of_not_bad (s : Rec) (hm : hasMissing s = false)
    (hr : rangePreds.any (fun p => p s) = false) :
    (∃ v, s.voltage = some v ∧ mkRat 1 2 ≤ v ∧ v ≤ 2) ∧
    (∃ v, s.temperature = some v ∧ -40 ≤ v ∧ v ≤ 150) ∧
    (∃ v, s.frequency = some v ∧ mkRat 1 2 ≤ v ∧ v ≤ 5) ∧
    (∃ v, s.executionTime = some v ∧ 0 ≤ v ∧ v ≤ 10000) := by
  rcases hbv : s.voltage with _ | v
  · exfalso; rw [hasMissing, hbv] at hm; simp at hm
  rcases hbt : s.temperature with _ | t
  · exfalso; rw [hasMissing, hbt] at hm; simp at hm
  rcases hbf : s.frequency with _ | f
  · exfalso; rw [hasMissing, hbf] at hm; simp at hm
  rcases hbe : s.executionTime with _ | e
  · exfalso; rw [hasMissing, hbe] at hm; simp at hm
  simp only [rangePreds, VALID_RANGES, List.map_cons, List.map_nil, List.any_cons,
    List.any_nil, outOfRange, hbv, hbt, hbf, hbe, Bool.or_eq_false_iff,
    decide_eq_false_iff_not, not_lt] at hr
  exact ⟨⟨v, rfl, hr.1.1, hr.1.2⟩, ⟨t, rfl, hr.2.1.1, hr.2.1.2⟩,
    ⟨f, rfl, hr.2.2.1.1, hr.2.2.1.2⟩, ⟨e, rfl, hr.2.2.2.1.1, hr.2.2.2.1.2⟩⟩

/-- C6: every record of the cleaned table has its four numeric fields
present and inside the declared valid ranges, a parsed timestamp, Result
exactly PASS or FAIL, and the table is sorted by timestamp nondecreasing. -/
theorem C6_clean_invariants (df : List Rec) :
    (∀ r ∈ (clean_data df).1,
      (∃ v, r.voltage = some v ∧ mkRat 1 2 ≤ v ∧ v ≤ 2) ∧
      (∃ v, r.temperature = some v ∧ -40 ≤ v ∧ v ≤ 150) ∧
      (∃ v, r.frequency = some v ∧ mkRat 1 2 ≤ v ∧ v ≤ 5) ∧
      (∃ v, r.executionTime = some v ∧ 0 ≤ v ∧ v ≤ 10000) ∧
      r.timestamp.isSome = true ∧
      (r.result = "PASS" ∨ r.result = "FAIL")) ∧
    List.Sorted recLeP (clean_data df).1 := by
  constructor
  · intro r hr
    obtain ⟨s, hsdf, heq, hm, hrange, hts, hres⟩ := clean_data_mem df r hr
    have hfields : r.voltage = s.voltage ∧ r.temperature = s.temperature ∧
        r.frequency = s.frequency ∧ r.executionTime = s.executionTime ∧
        r.timestamp = s.timestamp := by
      rw [heq]
      simp [fillErrorCode, normalizeResult]
    obtain ⟨h1, h2, h3, h4⟩ := ranges_of_not_bad s hm hrange
    rw [hfields.1, hfields.2.1, hfields.2.2.1, hfields.2.2.2.1, hfields.2.2.2.2]
    exact ⟨h1, h2, h3, h4, hts, hres⟩
  · simp only [clean_data]
    exact List.sorted_insertionSort recLeP _

theorem C6_clean_invariants_witness :
    baseRec ∈ (clean_data [baseRec]).1 ∧
    (baseRec.result = "PASS" ∨ baseRec.result = "FAIL") :=
  ⟨by decide, ((C6_clean_invariants [baseRec]).1 baseRec (by decide)).2.2.2.2.2⟩

lemma fields_preserved (s : Rec) :
    (fillErrorCode (normalizeResult s)).voltage = s.voltage ∧
    (fillErrorCode (normalizeResult s)).temperature = s.temperature ∧
    (fillErrorCode (normalizeResult s)).frequency = s.frequency ∧
    (fillErrorCode (normalizeResult s)).executionTime = s.executionTime ∧
    (fillErrorCode (normalizeResult s)).timestamp = s.timestamp := by
  simp [fillErrorCode, normalizeResult]

lemma clean_data_not_missing (df : List Rec) (r : Rec) (h : r ∈ (clean_data df).1) :
    hasMissing r = false := by
  obtain ⟨s, -, heq, hm, -, -, -⟩ := clean_data_mem df r h
  rw [heq]
  simpa [hasMissing, fillErrorCode, normalizeResult] using hm

lemma clean_data_not_bad (df : List Rec) (r : Rec) (h : r ∈ (clean_data df).1) :
    rangePreds.any (fun p => p r) = false := by
  obtain ⟨s, -, heq, -, hrange, -, -⟩ := clean_data_mem df r h
  rw [heq]
  simpa [rangePreds, VALID_RANGES, outOfRange, fillErrorCode, normalizeResult] using hrange

lemma clean_data_ts_some (df : List Rec) (r : Rec) (h : r ∈ (clean_data df).1) :
    r.timestamp.isSome = true := by
  obtain ⟨s, -, heq, -, -, hts, -⟩ := clean_data_mem df r h
  rw [heq]
  simpa [fillErrorCode, normalizeResult] using hts

lemma clean_data_normalize_fixed (df : List Rec) (r : Rec) (h : r ∈ (clean_data df).1) :
    normalizeResult r = r := by
  obtain ⟨s, -, -, -, -, -, hres⟩ := clean_data_mem df r h
  rcases hres with h0 | h0
  · unfold normalizeResult
    rw [h0, show strUpper (strTrim "PASS") = "PASS" from by decide, ← h0]
  · unfold normalizeResult
    rw [h0, show strUpper (strTrim "FAIL") = "FAIL" from by decide, ← h0]

lemma fillErrorCode_of_some (r : Rec) (e : String) (he : r.errorCode = some e) :
    fillErrorCode r = r := by
  unfold fillErrorCode
  rw [he, Option.getD_some, ← he]

lemma clean_data_fill_fixed (df : List Rec) (r : Rec) (h : r ∈ (clean_data df).1) :
    fillErrorCode r = r := by
  obtain ⟨s, -, heq, -, -, -, -⟩ := clean_data_mem df r h
  exact fillErrorCode_of_some r ((normalizeResult s).errorCode.getD "") (by rw [heq]; rfl)

lemma clean_data_result_valid (df : List Rec) (r : Rec) (h : r ∈ (clean_data df).1) :
    (r.result == "PASS" || r.result == "FAIL") = true := by
  obtain ⟨s, -, -, -, -, -, hres⟩ := clean_data_mem df r h
  rcases hres with h0 | h0 <;> simp [h0]

lemma clean_data_sorted (df : List Rec) : List.Sorted recLeP (clean_data df).1 := by
  simp only [clean_data]
  exact List.sorted_insertionSort recLeP _

lemma isSpikeAt_iff (daily : List Nat) (i : Nat) (v : ℚ)
    (hv : sampleVar (window (toQ daily) 7 i) = some v) (hv0 : 0 ≤ v) :
    isSpikeAt daily i ↔
      (movingAvg (toQ daily) 7 i < (daily.getD i 0 : ℚ) ∧
       25 / 4 * v < ((daily.getD i 0 : ℚ) - movingAvg (toQ daily) 7 i) ^ 2) := by
  unfold isSpikeAt movingStd
  rw [hv]
  set x : ℚ := (daily.getD i 0 : ℚ)
  set m : ℚ := movingAvg (toQ daily) 7 i
  have hs : Real.sqrt (v : ℝ) ^ 2 = (v : ℝ) := Real.sq_sqrt (by exact_mod_cast hv0)
  have hs0 : (0 : ℝ) ≤ Real.sqrt (v : ℝ) := Real.sqrt_nonneg _
  constructor
  · intro h
    have h1 : (m : ℝ) < (x : ℝ) := by nlinarith
    have h2 : ((25 / 4 * v : ℚ) : ℝ) < (((x - m) ^ 2 : ℚ) : ℝ) := by push_cast; nlinarith
    exact ⟨by exact_mod_cast h1, by exact_mod_cast h2⟩
  · rintro ⟨h1, h2⟩
    have h1r : (m : ℝ) < (x : ℝ) := by exact_mod_cast h1
    have h2r : ((25 / 4 * v : ℚ) : ℝ) < (((x - m) ^ 2 : ℚ) : ℝ) := by exact_mod_cast h2
    push_cast at h2r
    show ((m : ℝ) + 5 / 2 * Real.sqrt (v : ℝ)) < (x : ℝ)
    nlinarith [sq_nonneg ((x : ℝ) - (m : ℝ) + 5 / 2 * Real.sqrt (v : ℝ))]

lemma c3_window_50 : window (toQ c3daily) 7 7 = [3, 3, 5, 7, 7, 7, 50] := by
  simp [c3daily, toQ, window]

lemma c3_var_50 :
    sampleVar (window (toQ c3daily) 7 7) = some (42371 / 147) := by
  rw [c3_window_50]
  simp [sampleVar, qSumSqDev, qMean]
  norm_num

lemma c3_mean_50 : movingAvg (toQ c3daily) 7 7 = 82 / 7 := by
  rw [movingAvg, c3_window_50]
  simp [qMean]
  norm_num

example : ¬ isSpikeAt c3daily 7 := by
  rw [isSpikeAt_iff c3daily 7 (42371 / 147) c3_var_50 (by norm_num), c3_mean_50]
  simp only [c3daily, List.getD]
  norm_num

lemma c3_window_10 : window (toQ c3daily10) 7 7 = [3, 3, 5, 7, 7, 7, 10] := by
  simp [c3daily10, toQ, window]

lemma c3_var_10 : sampleVar (window (toQ c3daily10) 7 7) = some (19 / 3) := by
  rw [c3_window_10]
  simp [sampleVar, qSumSqDev, qMean]
  norm_num

lemma c3_mean_10 : movingAvg (toQ c3daily10) 7 7 = 6 := by
  rw [movingAvg, c3_window_10]
  simp [qMean]
  norm_num

/-- C3 counterexample: the claim says a day with 50 failures after seven
days of [3,3,3,5,7,7,7] (trailing average 5, trailing sample std exactly 2)
is flagged because 50 > 5 + 2.5 * 2.  In the code the pandas rolling window
INCLUDES the current day, so at the 50-day the window is [3,3,5,7,7,7,50]
with mean 82/7 and std about 17.0; the upper bound is about 54.2 > 50 and
the day is NOT flagged. -/
theorem C3_counterexample : ¬ isSpikeAt c3daily 7 := by
  rw [isSpikeAt_iff c3daily 7 (42371 / 147) c3_var_50 (by norm_num), c3_mean_50]
  simp only [c3daily, List.getD]
  norm_num

/-- C3 amended: with the code's 7-day window, which includes the current
day, neither the 50-failure day nor the 10-failure day over the baseline
[3,3,3,5,7,7,7] is flagged: the candidate day inflates its own window's
mean and standard deviation.  (For a full window of 7 samples the largest
possible value of (x - mean)/std is 6/sqrt 7, about 2.27, which is below
the 2.5 threshold.) -/
theorem C3_amended_window_includes_current_day :
    ¬ isSpikeAt c3daily 7 ∧ ¬ isSpikeAt c3daily10 7 := by
  constructor
  · rw [isSpikeAt_iff c3daily 7 (42371 / 147) c3_var_50 (by norm_num), c3_mean_50]
    simp only [c3daily, List.getD]
    norm_num
  · rw [isSpikeAt_iff c3daily10 7 (19 / 3) c3_var_10 (by norm_num), c3_mean_10]
    simp only [c3daily10, List.getD]
    norm_num

/-- C9: `classify_failures` keeps every record (the record sequence is
unchanged), assigns each record's Failure_Category by lookup of its
Error_Code in the fixed static mapping with fallback "Unknown", and the
claimed concrete lookups hold ("ERR_X99", "" and a missing code give
"Unknown"; "ERR_T01" gives "Timing Failure", "ERR_V01" gives "Overcurrent",
"ERR_B03" gives "Data Corruption"). -/
theorem C9_classification (failures : List Rec) :
    (classify_failures failures).map ClassifiedRec.record = failures ∧
    (∀ c ∈ classify_failures failures,
      c.Failure_Category = categoryOfCode c.record.errorCode) ∧
    categoryOfCode (some "ERR_X99") = "Unknown" ∧
    categoryOfCode (some "") = "Unknown" ∧
    categoryOfCode none = "Unknown" ∧
    categoryOfCode (some "ERR_T01") = "Timing Failure" ∧
    categoryOfCode (some "ERR_V01") = "Overcurrent" ∧
    categoryOfCode (some "ERR_B03") = "Data Corruption" := by
  refine ⟨?_, ?_, by decide, by decide, by decide, by decide, by decide, by decide⟩
  · induction failures with
    | nil => rfl
    | cons a t ih => simpa [classify_failures] using ih
  · intro c hc
    obtain ⟨r, hr, rfl⟩ := List.mem_map.mp hc
    rfl

theorem C9_classification_witness :
    categoryOfCode (some "ERR_X99") = "Unknown" ∧
    categoryOfCode (some "ERR_T01") = "Timing Failure" :=
  ⟨(C9_classification []).2.2.1, (C9_classification []).2.2.2.2.2.1⟩

/-- C10: the binned pattern tables use the fixed `pd.cut` intervals; each
bin's Total counts exactly the records with a value in `(lo, hi]`; a value
below or at the lowest edge, or above the highest edge (Temperature outside
(20, 120], Voltage outside (0.7, 1.5], Execution_Time outside (0, 350]) is
in no bin of its table; on `c10df` (two cleaned records, one with
Temperature 15) the Totals sum to 1 while the table has 2 records. -/
theorem C10_bin_range_exclusion :
    (∀ df : List Rec, (failure_vs_temperature df).map (fun row => (row.lo, row.hi)) =
      tempEdges.zip tempEdges.tail) ∧
    (∀ df : List Rec, (failure_vs_temperature df).map BinRow.Total =
      (tempEdges.zip tempEdges.tail).map
        (fun e => (df.filter (fun r => inBin e.1 e.2 r.temperature)).length)) ∧
    (∀ lo hi : ℚ, (lo, hi) ∈ tempEdges.zip tempEdges.tail →
      ∀ v : ℚ, v ≤ 20 ∨ 120 < v → inBin lo hi (some v) = false) ∧
    (∀ lo hi : ℚ, (lo, hi) ∈ voltEdges.zip voltEdges.tail →
      ∀ v : ℚ, v ≤ mkRat 7 10 ∨ mkRat 15 10 < v → inBin lo hi (some v) = false) ∧
    (∀ lo hi : ℚ, (lo, hi) ∈ durEdges.zip durEdges.tail →
      ∀ v : ℚ, v ≤ 0 ∨ 350 < v → inBin lo hi (some v) = false) ∧
    sumTotals (failure_vs_temperature c10df) = 1 ∧ c10df.length = 2 := by
  have hkey : ∀ (edges : List ℚ) (a b : ℚ), (∀ e ∈ edges.zip edges.tail, a ≤ e.1 ∧ e.2 ≤ b) →
      ∀ lo hi : ℚ, (lo, hi) ∈ edges.zip edges.tail →
      ∀ v : ℚ, v ≤ a ∨ b < v → inBin lo hi (some v) = false := by
    intro edges a b hab lo hi hmem v hv
    obtain ⟨h1, h2⟩ := hab (lo, hi) hmem
    simp only [inBin, Bool.and_eq_false_iff, decide_eq_false_iff_not, not_lt, not_le]
    rcases hv with h | h
    · exact Or.inl (le_trans h h1)
    · exact Or.inr (lt_of_le_of_lt h2 h)
  refine ⟨?_, ?_, hkey tempEdges 20 120 (by decide),
    hkey voltEdges (mkRat 7 10) (mkRat 15 10) (by decide),
    hkey durEdges 0 350 (by decide), by decide, by decide⟩
  · intro df
    simp only [failure_vs_temperature, failure_rate_by_column_binned, List.map_map]
    rfl
  · intro df
    simp only [failure_vs_temperature, failure_rate_by_column_binned, List.map_map]
    rfl

theorem C10_bin_range_exclusion_witness :
    inBin 20 30 (some (15 : ℚ)) = false ∧ inBin 110 120 (some (121 : ℚ)) = false :=
  ⟨C10_bin_range_exclusion.2.2.1 20 30 (by decide) 15 (Or.inl (by decide)),
   C10_bin_range_exclusion.2.2.1 110 120 (by decide) 121 (Or.inr (by decide))⟩

lemma mem_uniqueKeys_aux {α : Type} [DecidableEq α] (l : List α) (acc : List α) (a : α) :
    a ∈ l.foldl (fun acc k => if k ∈ acc then acc else acc ++ [k]) acc ↔ a ∈ acc ∨ a ∈ l := by
  induction l generalizing acc with
  | nil => simp
  | cons k t ih =>
    simp only [List.foldl_cons, ih, List.mem_cons]
    by_cases hk : k ∈ acc
    · simp only [if_pos hk]
      constructor
      · rintro (h | h)
        · exact Or.inl h
        · exact Or.inr (Or.inr h)
      · rintro (h | rfl | h)
        · exact Or.inl h
        · exact Or.inl hk
        · exact Or.inr h
    · simp only [if_neg hk, List.mem_append, List.mem_singleton]
      tauto

lemma mem_uniqueKeys {α : Type} [DecidableEq α] (l : List α) (a : α) :
    a ∈ uniqueKeys l ↔ a ∈ l := by
  unfold uniqueKeys
  rw [mem_uniqueKeys_aux]
  simp

/-- C4 counterexample: the claim says the per-test weekly trend yields
separate rows for the same week number in different ISO years.  On `c4df`
the (ISO year, ISO week) weekly table has 2 rows, but the per-test trend
has a single row with Total 2: `failure_trend_by_test` groups only by the
ISO week number and merges the two years. -/
theorem C4_counterexample :
    (failure_trend_by_test c4df).length = 1 ∧
    (failure_trend_by_test c4df).map TestWeekRow.Total = [2] ∧
    (weekly_failure_rate c4df).length = 2 := by
  refine ⟨by decide, by decide, by decide⟩

lemma filter_comm_and (p q : Rec → Bool) (l : List Rec) :
    (l.filter p).filter q = l.filter (fun r => p r && q r) := by
  rw [List.filter_filter]
  exact List.filter_congr (fun r _ => Bool.and_comm (q r) (p r))

/-- C4 amended: `failure_trend_by_test` restricts to each Test_Name and then
groups by ISO week number ONLY (no ISO year): each emitted row's Total and
Failures count that test's records with that week number across ALL ISO
years, and every record of the input is covered by some row of its test and
week number. -/
theorem C4_amended_week_only_grouping (df : List Rec) :
    (∀ row ∈ failure_trend_by_test df,
      row.Total = (df.filter
        (fun r => r.testName == row.Test_Name && isoWeekOf r == row.Week)).length ∧
      row.Failures = (df.filter
        (fun r => r.testName == row.Test_Name &&
          (isoWeekOf r == row.Week && r.result == "FAIL"))).length) ∧
    (∀ r ∈ df, ∃ row ∈ failure_trend_by_test df,
      row.Test_Name = r.testName ∧ row.Week = isoWeekOf r) := by
  constructor
  · intro row hrow
    obtain ⟨t, ht, hrow2⟩ := List.mem_flatMap.mp hrow
    obtain ⟨w, hw, rfl⟩ := List.mem_map.mp hrow2
    refine ⟨?_, ?_⟩ <;> dsimp only
    · rw [filter_comm_and]
    · rw [filter_comm_and, filter_comm_and]
  · intro r hr
    refine ⟨_, List.mem_flatMap.mpr ⟨r.testName, ?_, List.mem_map.mpr ⟨isoWeekOf r, ?_, rfl⟩⟩,
      rfl, rfl⟩
    · rw [mem_uniqueKeys]
      exact List.mem_map.mpr ⟨r, hr, rfl⟩
    · rw [(List.perm_insertionSort weekLeP _).mem_iff, mem_uniqueKeys]
      refine List.mem_map.mpr ⟨r, ?_, rfl⟩
      exact List.mem_filter.mpr ⟨hr, by simp⟩

theorem C4_amended_week_only_grouping_witness :
    ∃ row ∈ failure_trend_by_test c4df,
      row.Test_Name = "Timing_Check" ∧ row.Week = 5 :=
  (C4_amended_week_only_grouping c4df).2 { baseRec with timestamp := some c4t1 } (by decide)

lemma compute_correlations_spec (pbr : List (Bool × ℚ) → ℚ × ℚ) (df : List Rec)
    (feat : String) (get : Rec → Option ℚ)
    (hmem : (feat, get) ∈ numericFeatures)
    (huniq : ∀ fg ∈ numericFeatures, fg.1 = feat → fg.2 = get) :
    ((∃ row ∈ compute_correlations pbr df, row.Feature = feat) ↔
      10 ≤ (validPairs get df).length) ∧
    ∀ row ∈ compute_correlations pbr df, row.Feature = feat →
      row.Correlation = pyRound 4 (pbr (validPairs get df)).1 ∧
      row.P_Value = (pbr (validPairs get df)).2 ∧
      row.Significant = decide ((pbr (validPairs get df)).2 < mkRat 5 100) ∧
      row.Strength = (if mkRat 3 10 < |(pbr (validPairs get df)).1| then "Strong"
        else if mkRat 1 10 < |(pbr (validPairs get df)).1| then "Moderate" else "Weak") := by
  have main : ∀ row ∈ compute_correlations pbr df, row.Feature = feat →
      10 ≤ (validPairs get df).length ∧
      row = ⟨feat, pyRound 4 (pbr (validPairs get df)).1, (pbr (validPairs get df)).2,
        decide ((pbr (validPairs get df)).2 < mkRat 5 100),
        if mkRat 3 10 < |(pbr (validPairs get df)).1| then "Strong"
        else if mkRat 1 10 < |(pbr (validPairs get df)).1| then "Moderate" else "Weak"⟩ := by
    intro row hrow hfeat
    obtain ⟨fg, hfg, hg⟩ := List.mem_filterMap.mp hrow
    dsimp only at hg
    rcases Nat.lt_or_ge (validPairs fg.2 df).length 10 with hlt | hge
    · rw [if_pos hlt] at hg
      exact absurd hg (by simp)
    · rw [if_neg (Nat.not_lt.mpr hge)] at hg
      have hrow_eq := Option.some.inj hg
      have hname : fg.1 = feat := by rw [← hfeat, ← hrow_eq]
      have hget : fg.2 = get := huniq fg hfg hname
      rw [hget] at hge hrow_eq
      rw [hname] at hrow_eq
      exact ⟨hge, hrow_eq.symm⟩
  refine ⟨⟨?_, ?_⟩, ?_⟩
  · rintro ⟨row, hrow, hfeat⟩
    exact (main row hrow hfeat).1
  · intro hlen
    refine ⟨⟨feat, pyRound 4 (pbr (validPairs get df)).1, (pbr (validPairs get df)).2,
      decide ((pbr (validPairs get df)).2 < mkRat 5 100),
      if mkRat 3 10 < |(pbr (validPairs get df)).1| then "Strong"
      else if mkRat 1 10 < |(pbr (validPairs get df)).1| then "Moderate" else "Weak"⟩,
      List.mem_filterMap.mpr ⟨(feat, get), hmem, ?_⟩, rfl⟩
    dsimp only
    rw [if_neg (Nat.not_lt.mpr hlen)]
  · intro row hrow hfeat
    rw [(main row hrow hfeat).2]
    exact ⟨rfl, rfl, rfl, rfl⟩

/-- C8: for each numeric feature, the correlation table has a row for that
feature iff at least 10 valid paired observations exist, and the row carries
the coefficient rounded to 4 decimals, the two-tailed p-value, the flag
p < 0.05 and the Strong/Moderate/Weak label with thresholds 0.3 and 0.1 on
the absolute unrounded coefficient - all expressed over the point-biserial
primitive `pbr`. -/
theorem C8_correlation_table (pbr : List (Bool × ℚ) → ℚ × ℚ) (df : List Rec)
    (feat : String) (get : Rec → Option ℚ) (hmem : (feat, get) ∈ numericFeatures) :
    ((∃ row ∈ compute_correlations pbr df, row.Feature = feat) ↔
      10 ≤ (validPairs get df).length) ∧
    ∀ row ∈ compute_correlations pbr df, row.Feature = feat →
      row.Correlation = pyRound 4 (pbr (validPairs get df)).1 ∧
      row.P_Value = (pbr (validPairs get df)).2 ∧
      row.Significant = decide ((pbr (validPairs get df)).2 < mkRat 5 100) ∧
      row.Strength = (if mkRat 3 10 < |(pbr (validPairs get df)).1| then "Strong"
        else if mkRat 1 10 < |(pbr (validPairs get df)).1| then "Moderate" else "Weak") := by
  refine compute_correlations_spec pbr df feat get hmem ?_
  fin_cases hmem <;> (intro fg hfg h1; fin_cases hfg <;> simp_all)

/-- Constant point-biserial primitive used only to instantiate the C8
theorem at a concrete input. -/

theorem C8_correlation_table_witness :
    ∃ row ∈ compute_correlations pbr0 c8df, row.Feature = "Temperature" :=
  (C8_correlation_table pbr0 c8df "Temperature" Rec.temperature
    (by exact List.mem_cons_self _ _)).1.mpr (by decide)

lemma set_lget_self (l : List Nat) (i : Nat) : l.set i (lgetN l i) = l := by
  induction l generalizing i with
  | nil => rfl
  | cons a t ih =>
    cases i with
    | zero => rfl
    | succ m =>
      show a :: t.set m (lgetN t m) = a :: t
      rw [ih]

lemma count_set (l : List Nat) (n a b : Nat) (h : n < l.length) :
    (l.set n a).count b + (if lgetN l n = b then 1 else 0) =
      l.count b + (if a = b then 1 else 0) := by
  induction l generalizing n with
  | nil => simp at h
  | cons x t ih =>
    cases n with
    | zero =>
      simp only [List.set_cons_zero, List.count_cons, lgetN, List.getD_cons_zero, beq_iff_eq]
      by_cases h1 : x = b <;> by_cases h2 : a = b <;> simp [h1, h2]
    | succ m =>
      have hm := ih m (Nat.lt_of_succ_lt_succ (by simpa using h))
      simp only [List.set_cons_succ, List.count_cons, lgetN, List.getD_cons_succ, beq_iff_eq]
      simp only [lgetN, List.getD_eq_getElem?_getD] at hm ⊢
      by_cases h1 : x = b <;> simp [h1] <;> omega

lemma iswap_perm (t : List Nat) (i j : Nat) : List.Perm (iswap t i j) t := by
  unfold iswap
  split
  · rename_i h
    obtain ⟨hi, hj⟩ := h
    by_cases hij : i = j
    · subst hij
      rw [List.set_set, set_lget_self]
    · apply List.perm_iff_count.mpr
      intro b
      have h1 := count_set t i (lgetN t j) b hi
      have h2 := count_set (t.set i (lgetN t j)) j (lgetN t i) b (by simpa using hj)
      have h3 : lgetN (t.set i (lgetN t j)) j = lgetN t j := by
        simp [lgetN, List.getElem?_set_ne hij]
      rw [h3] at h2
      omega
  · exact List.Perm.refl t

lemma sortSegment_perm (v : List Int) (t : List Nat) (pl pr : Nat) :
    List.Perm (sortSegment v t pl pr) t := by
  unfold sortSegment
  conv_rhs =>
    rw [← List.take_append_drop pl t, ← List.take_append_drop (pr + 1 - pl) (t.drop pl),
      ← List.append_assoc]
  exact (List.Perm.append_left _
    (List.perm_insertionSort (fun a b => v.getD a 0 ≤ v.getD b 0) _)).append_right _

lemma partLoop_perm (v : List Int) (vp : Int) :
    ∀ (fuel : Nat) (t : List Nat) (pi pj : Nat), List.Perm (partLoop v vp t pi pj fuel).1 t := by
  intro fuel
  induction fuel with
  | zero => intro t pi pj; exact List.Perm.refl t
  | succ f ih =>
    intro t pi pj
    simp only [partLoop]
    split
    · exact List.Perm.refl t
    · exact (ih _ _ _).trans (iswap_perm _ _ _)

lemma ite_iswap_perm (u : List Nat) (c : Prop) [Decidable c] (a b : Nat) :
    List.Perm (if c then iswap u a b else u) u := by
  split
  · exact iswap_perm u a b
  · exact List.Perm.refl u

lemma introSort_perm (v : List Int) :
    ∀ (fuel : Nat) (t : List Nat) (pl pr depth : Nat),
      List.Perm (introSort v fuel t pl pr depth) t := by
  intro fuel
  induction fuel with
  | zero => intro t pl pr depth; exact List.Perm.refl t
  | succ f ih =>
    intro t pl pr depth
    simp only [introSort]
    split
    · exact sortSegment_perm v t pl pr
    · cases depth with
      | zero => exact sortSegment_perm v t pl pr
      | succ d =>
        dsimp only
        refine (ih _ _ _ _).trans ((ih _ _ _ _).trans ?_)
        refine (iswap_perm _ _ _).trans ?_
        refine (partLoop_perm _ _ _ _ _ _).trans ?_
        refine (iswap_perm _ _ _).trans ?_
        exact (ite_iswap_perm _ _ _ _).trans
          ((ite_iswap_perm _ _ _ _).trans (ite_iswap_perm _ _ _ _))

lemma argsortNumpy_perm (v : List Int) :
    List.Perm (argsortNumpy v) (List.range v.length) := by
  unfold argsortNumpy
  exact introSort_perm v _ _ _ _ _

lemma map_getD_range (l : List Rec) :
    (List.range l.length).map (fun i => l.getD i baseRec) = l := by
  induction l with
  | nil => rfl
  | cons a t ih =>
    rw [List.length_cons, List.range_succ_eq_map, List.map_cons, List.map_map]
    refine congrArg₂ (· :: ·) rfl ?_
    calc (List.range t.length).map ((fun i => (a :: t).getD i baseRec) ∘ Nat.succ)
        = (List.range t.length).map (fun i => t.getD i baseRec) := rfl
      _ = t := ih

lemma sort_values_numpy_perm (df : List Rec) : List.Perm (sort_values_numpy df) df := by
  unfold sort_values_numpy
  have h := (argsortNumpy_perm (df.map tsKey)).map (fun i => df.getD i baseRec)
  rw [List.length_map] at h
  exact h.trans (by rw [map_getD_range])

lemma clean_np_perm_clean (df : List Rec) :
    List.Perm (clean_data_np df).1 (clean_data df).1 := by
  simp only [clean_data_np, clean_data]
  exact (sort_values_numpy_perm _).trans (List.perm_insertionSort recLeP _).symm

/-- C7 counterexample: the claim says the clean table is an exact fixed
point of cleaning, for every input.  `c7df` cleans to 17 valid rows with
identical timestamps; re-cleaning re-sorts them with the numpy quicksort,
whose partition (taken because the table has more than 16 rows) swaps tied
keys, so the re-cleaned table has the same rows in a different order. -/
theorem C7_counterexample :
    (clean_data_np (clean_data_np c7df).1).1 ≠ (clean_data_np c7df).1 := by decide

/-- C7 amended: cleaning is idempotent up to the order of rows with tied
timestamps - re-cleaning the cleaned table removes nothing (every report
reason counts 0, `rows_removed` = 0 and `rows_remaining` is the table
length) and returns the same rows as a permutation; the exact fixed-point
property fails only because `sort_values`' default numpy quicksort may
reorder rows with equal timestamps. -/
theorem C7_amended_idempotent_up_to_tied_rows (df : List Rec) :
    List.Perm (clean_data_np (clean_data_np df).1).1 (clean_data_np df).1 ∧
    (clean_data_np (clean_data_np df).1).2 =
      { rows_with_missing_values := 0
        rows_out_of_range := 0
        rows_bad_timestamp := 0
        rows_invalid_result := 0
        rows_removed := 0
        rows_remaining := (clean_data_np df).1.length } := by
  set out := (clean_data_np df).1 with hout
  have hmem : ∀ r ∈ out, r ∈ (clean_data df).1 := fun r hr =>
    (clean_np_perm_clean df).mem_iff.mp (hout ▸ hr)
  have hm0 : out.filter (fun r => hasMissing r) = [] :=
    List.filter_eq_nil_iff.mpr (fun r hr => by simp [clean_data_not_missing df r (hmem r hr)])
  have hm1 : out.filter (fun r => !hasMissing r) = out :=
    List.filter_eq_self.mpr (fun r hr => by simp [clean_data_not_missing df r (hmem r hr)])
  have hb0 : out.filter (fun x => rangePreds.any (fun p => p x)) = [] :=
    List.filter_eq_nil_iff.mpr (fun r hr => by simp [clean_data_not_bad df r (hmem r hr)])
  have hb1 : out.filter (fun x => !rangePreds.any (fun p => p x)) = out :=
    List.filter_eq_self.mpr (fun r hr => by simp [clean_data_not_bad df r (hmem r hr)])
  have ht0 : out.filter (fun r => r.timestamp.isNone) = [] :=
    List.filter_eq_nil_iff.mpr (fun r hr => by
      have h2 := clean_data_ts_some df r (hmem r hr)
      rcases ho : r.timestamp with _ | a
      · rw [ho] at h2; simp at h2
      · simp [ho])
  have ht1 : out.filter (fun r => r.timestamp.isSome) = out :=
    List.filter_eq_self.mpr (fun r hr => clean_data_ts_some df r (hmem r hr))
  have hn : out.map normalizeResult = out := by
    conv_rhs => rw [← List.map_id out]
    exact List.map_congr_left (fun r hr => by rw [clean_data_normalize_fixed df r (hmem r hr)]; rfl)
  have hv0 : out.filter (fun r => !(r.result == "PASS" || r.result == "FAIL")) = [] :=
    List.filter_eq_nil_iff.mpr (fun r hr => by simp [clean_data_result_valid df r (hmem r hr)])
  have hv1 : out.filter (fun r => r.result == "PASS" || r.result == "FAIL") = out :=
    List.filter_eq_self.mpr (fun r hr => clean_data_result_valid df r (hmem r hr))
  have hf : out.map fillErrorCode = out := by
    conv_rhs => rw [← List.map_id out]
    exact List.map_congr_left (fun r hr => by rw [clean_data_fill_fixed df r (hmem r hr)]; rfl)
  have hlen : (sort_values_numpy out).length = out.length := (sort_values_numpy_perm out).length_eq
  constructor
  · simp only [clean_data_np]
    rw [hm1, seqFilter_fst, hb1, ht1, hn, hv1, hf]
    exact sort_values_numpy_perm out
  · simp only [clean_data_np]
    rw [hm1, seqFilter_fst, seqFilter_snd, hb1, hb0, ht1, ht0, hn, hv1, hv0, hf, hm0]
    simp [hlen]
